import Mathlib

/-!
# gitlab-recent-job-time: a shallow embedding of the time-resolution pipeline

The definitions below follow `gitlab-recent-job-time.user.js`: the two classes
`GitLabAPI` (URL building, memoised project lookup) and `RecentTimes` (DOM
traversal, `formatTime`, `loadTime`).

Modelling conventions.

* A JavaScript number is an integer or `NaN` (`Num`).  `Math.round (x / d)` for an
  integer `x` and a positive integer `d` is `⌊(2 * x + d) / (2 * d)⌋` (round half up);
  this is exact as long as the IEEE quotient of the two integers is not rounded across a
  half, which holds for every time difference below `2 ^ 42` ms.  `%` is the truncated
  remainder.
* Side effects (alerts, token reads, DOM edits, `GET` requests, `console.error`) are
  recorded in the order in which the script performs them (`Effect`); `console.debug`
  and `console.log` are not recorded.
* A promise chain is run to completion against a `Network` that answers each `GET`.
-/

namespace GitLabRecentJobTime

/-! ## JavaScript values -/

/-- A JavaScript number, restricted to the values that occur in the script. -/
inductive Num where
  | nan
  | int (i : Int)
  deriving DecidableEq, Repr

namespace Num

/-- The value of `Math.round(x / d)` for a positive integer `d` (round half up). -/
def roundDiv (x : Num) (d : Int) : Num :=
  match x with
  | nan => nan
  | int i => int ((2 * i + d) / (2 * d))

/-- The value of `x % d`: the remainder takes the sign of the dividend. -/
def rem (x : Num) (d : Int) : Num :=
  match x with
  | nan => nan
  | int i => int (Int.tmod i d)

/-- The value of `x < k`: every comparison with `NaN` is false. -/
def lt (x : Num) (k : Int) : Bool :=
  match x with
  | nan => false
  | int i => decide (i < k)

/-- The value of `x - y`. -/
def sub (x y : Num) : Num :=
  match x, y with
  | int a, int b => int (a - b)
  | _, _ => nan

/-- The string a template literal produces for a number. -/
def toStr (x : Num) : String :=
  match x with
  | nan => "NaN"
  | int i => toString i

end Num

/-- The errors the script raises or receives. -/
inductive JsError where
  | typeError (message : String)
  | referenceError (message : String)
  | httpError (status : Nat) (body : String)
  deriving DecidableEq, Repr

/-- Truthiness of a value that is a string, `null` or `undefined`. -/
def truthy (v : Option String) : Bool :=
  match v with
  | none => false
  | some s => s != ""

/-- `String.prototype.padStart` with a one-character fill string. -/
def padStart (s : String) (len : Nat) (fill : Char) : String :=
  String.mk (List.replicate (len - s.length) fill) ++ s

/-- `String.prototype.toLowerCase` on tag names. -/
def toLowerCase (s : String) : String :=
  String.mk (s.data.map Char.toLower)

/-- The code points `String.prototype.trim` strips (WhiteSpace and LineTerminator). -/
def isWhiteSpace (c : Char) : Bool :=
  let n := c.toNat
  n == 9 || n == 10 || n == 11 || n == 12 || n == 13 || n == 32 || n == 160 ||
  n == 5760 || (8192 ≤ n && n ≤ 8202) || n == 8232 || n == 8233 || n == 8239 ||
  n == 8287 || n == 12288 || n == 65279

/-- `String.prototype.trim`. -/
def trim (s : String) : String :=
  String.mk ((((s.data.dropWhile isWhiteSpace).reverse).dropWhile isWhiteSpace).reverse)

/-! ## GitLabAPI -/

/-- `GitLabAPI.urlOpts`: `opts` lists the own enumerable properties of the options
object in enumeration order; the loop state is `(url, addedOpts)`. -/
def urlOptsLoop (url : String) (addedOpts : Bool) : List (String × String) → String
  | [] => url
  | (opt, val) :: rest =>
    urlOptsLoop (url ++ (if addedOpts then "&" else "?") ++ opt ++ "=" ++ val) true rest

/-- `GitLabAPI.urlOpts(url, opts)`. -/
def urlOpts (url : String) (opts : List (String × String)) : String :=
  urlOptsLoop url false opts

/-- The `attrs` object `GitLabAPI.getCommitStatus` builds from `opts.stage` and
`opts.name`: a property is set only for a truthy value, `stage` before `name`. -/
def statusAttrs (stage name : Option String) : List (String × String) :=
  (match stage with
    | some s => if truthy (some s) then [("stage", s)] else []
    | none => []) ++
  (match name with
    | some n => if truthy (some n) then [("name", n)] else []
    | none => [])

/-- The path `GitLabAPI.getCommitStatus(sha, opts)` requests. -/
def getCommitStatusUrl (sha : String) (project : Nat) (stage name : Option String) : String :=
  urlOpts ("/api/v4/projects/" ++ toString project ++ "/repository/commits/" ++ sha ++ "/statuses")
    (statusAttrs stage name)

/-- The path `GitLabAPI.getCommit(sha, opts)` requests. -/
def getCommitUrl (sha : String) (project : Nat) : String :=
  "/api/v4/projects/" ++ toString project ++ "/repository/commits/" ++ sha

/-! ## RecentTimes.formatTime -/

/-- The local helper `pad` of `formatTime`. -/
def pad (section_ : String) : String :=
  padStart section_ 2 '0'

/-- `RecentTimes.formatTime(time)`, statement by statement. -/
def formatTime (time : Num) : String :=
  let seconds := Num.roundDiv time 1000
  let minutes := Num.roundDiv seconds 60
  let seconds := Num.rem seconds 60
  if Num.lt minutes 60 then
    pad (Num.toStr minutes) ++ ":" ++ pad (Num.toStr seconds)
  else
    let hours := Num.roundDiv minutes 60
    let minutes := Num.rem minutes 60
    Num.toStr hours ++ ":" ++ pad (Num.toStr minutes) ++ ":" ++ pad (Num.toStr seconds)

/-! ## The page: commit link, project path, job table -/

/-- What the script reads from the page outside the job table. -/
structure Page where
  /-- The `href` of `document.querySelector(".branch-info a[href*='/commit']")`, if any. -/
  commitLink : Option String
  /-- The value of `window.location.pathname`. -/
  pathname : String
  /-- The value `GM_getValue("gitlab-token")` returns. -/
  token : Option String
  /-- The value `window.prompt` returns. -/
  promptAnswer : Option String

/-- Removes a literal from the front of a character list, when it is there. -/
def dropLiteral : List Char → List Char → Option (List Char)
  | [], s => some s
  | _ :: _, [] => none
  | p :: ps, c :: cs => if p = c then dropLiteral ps cs else none

/-- The match of `/\/commit\/([a-zA-Z0-9]+)\/?/` anchored at the start of `s`:
the captured group, a maximal non-empty alphanumeric run. -/
def matchCommitAt (s : List Char) : Option String :=
  match dropLiteral "/commit/".data s with
  | none => none
  | some rest =>
    let sha := rest.takeWhile Char.isAlphanum
    if sha.isEmpty then none else some (String.mk sha)

/-- The first capture group of the leftmost match of `/\/commit\/([a-zA-Z0-9]+)\/?/`. -/
def matchCommit : List Char → Option String
  | [] => none
  | c :: cs =>
    match matchCommitAt (c :: cs) with
    | some sha => some sha
    | none => matchCommit cs

/-- `RecentTimes.getCommit()`. -/
def getCommit (page : Page) : Option String :=
  match page.commitLink with
  | none => none
  | some href => matchCommit href.data

/-- `RecentTimes.getProjectName()`: group 1 of `/^\/([^\/]*\/[^\/]*)\//` on the
path name; indexing the `null` of a failed match raises. -/
def getProjectName (page : Page) : Except JsError String :=
  let noMatch : Except JsError String := .error (.typeError "match returned null")
  match page.pathname.data with
  | '/' :: rest =>
    match rest.dropWhile (fun c => c != '/') with
    | '/' :: rest2 =>
      match rest2.dropWhile (fun c => c != '/') with
      | '/' :: _ =>
        .ok (String.mk (rest.takeWhile (fun c => c != '/') ++ '/' :: rest2.takeWhile (fun c => c != '/')))
      | _ => noMatch
    | _ => noMatch
  | _ => noMatch

/-- A node met on a `previousSibling` chain. -/
structure Sibling where
  /-- The `tagName`; `none` for text and comment nodes. -/
  tagName : Option String
  /-- The `name` attribute of `querySelector("a[name]")`, when a descendant matches. -/
  namedAnchor : Option String
  /-- The `innerText`. -/
  innerText : String

/-- The element `el.parentElement.parentElement`. -/
structure Row where
  tagName : String
  /-- The nodes before the row, nearest first: `previousSibling`, its `previousSibling`, ... -/
  previousSiblings : List Sibling

/-- The element `el.parentElement`. -/
structure Cell where
  tagName : String
  /-- The nodes before the cell, nearest first. -/
  previousSiblings : List Sibling
  parentElement : Option Row

/-- The `<p data-recent-times>` element handed to `loadTime`. -/
structure Anchor where
  parentElement : Option Cell
  /-- Whether `el.querySelector("[data-load-time]")` finds a child of `el`. -/
  loadTimeLink : Bool

/-- The error raised by reading a property of `null`. -/
def nullProperty (property : String) : JsError :=
  .typeError ("Cannot read property " ++ property ++ " of null")

/-- The condition of the `while` loop of `getStageFromRecentTimes` on a non-null `sib`. -/
def stageLoopContinues (sib : Sibling) : Bool :=
  !truthy sib.tagName || toLowerCase (sib.tagName.getD "") != "tr" || sib.namedAnchor.isNone

/-- The `while` loop of `getStageFromRecentTimes`, started at `sib = row.previousSibling`.
For `sib = null` the condition `!sib || ...` holds and the body reads `sib.previousSibling`. -/
def stageLoop : List Sibling → Except JsError Sibling
  | [] => .error (nullProperty "previousSibling")
  | sib :: rest => if stageLoopContinues sib then stageLoop rest else .ok sib

/-- `RecentTimes.getStageFromRecentTimes(el)`. -/
def getStageFromRecentTimes (el : Anchor) : Except JsError (Option String) :=
  match el.parentElement with
  | none => .error (nullProperty "parentElement")
  | some cell =>
    match cell.parentElement with
    | none => .error (nullProperty "tagName")
    | some row =>
      if toLowerCase row.tagName != "tr" then .ok none
      else
        match stageLoop row.previousSiblings with
        | .error e => .error e
        | .ok sib => .ok sib.namedAnchor

/-- The condition of the `while` loop of `getBuildNameFromRecentTimes` on a non-null `sib`. -/
def buildNameLoopContinues (sib : Sibling) : Bool :=
  !truthy sib.tagName || toLowerCase (sib.tagName.getD "") != "td"

/-- The `while` loop of `getBuildNameFromRecentTimes`, started at `sib = cell.previousSibling`. -/
def buildNameLoop : List Sibling → Except JsError Sibling
  | [] => .error (nullProperty "previousSibling")
  | sib :: rest => if buildNameLoopContinues sib then buildNameLoop rest else .ok sib

/-- `RecentTimes.getBuildNameFromRecentTimes(el)`. -/
def getBuildNameFromRecentTimes (el : Anchor) : Except JsError (Option String) :=
  match el.parentElement with
  | none => .error (nullProperty "tagName")
  | some cell =>
    if toLowerCase cell.tagName != "td" then .ok none
    else
      match buildNameLoop cell.previousSiblings with
      | .error e => .error e
      | .ok sib => .ok (some (trim sib.innerText))

/-! ## Effects, network and the project cache -/

/-- What the script does to the outside world, in program order. -/
inductive Effect where
  /-- The call `alert(message)`. -/
  | alert (message : String)
  /-- A read of `this.token`, that is `GM_getValue("gitlab-token")`. -/
  | gmGetValue
  /-- The call `GM_setValue("gitlab-token", val)`. -/
  | gmSetValue (val : String)
  /-- The call `window.prompt`. -/
  | prompt
  /-- The call `el.removeChild(el.querySelector("[data-load-time]"))`. -/
  | removeChild
  /-- The call `GitLabAPI.getJSON(url, token)`: one `GET` request. -/
  | getJSON (url : String) (token : Option String)
  /-- The call `el.append(this.loadTimeLink(...))` with the text of the new link. -/
  | append (text : String)
  /-- The call `console.error` with a message. -/
  | consoleError (message : String)
  /-- The call `console.error(err)` of the `catch` handler. -/
  | consoleErrorOf (err : JsError)
  deriving DecidableEq, Repr

/-- The answer to one `GET`: status 200 with a parsed body, or anything else. -/
inductive Response (α : Type) where
  | ok (body : α)
  | failed (status : Nat) (body : String)

/-- The settlement of the promise `getJSON` returns. -/
def Response.toExcept {α : Type} (r : Response α) : Except JsError α :=
  match r with
  | .ok body => .ok body
  | .failed status body => .error (.httpError status body)

/-- The body of `GET /projects/:id`; an absent or zero `id` is falsy. -/
structure ProjectData where
  id : Option Nat
  deriving DecidableEq, Repr

/-- The body of `GET /projects/:id/repository/commits/:sha`. -/
structure CommitData where
  /-- The field `parent_ids`; `none` when it is missing. -/
  parent_ids : Option (List String)
  deriving DecidableEq, Repr

/-- One element of the body of `GET .../commits/:sha/statuses`. -/
structure StatusRecord where
  /-- The field `name`; `none` when it is missing or `null`. -/
  name : Option String
  status : String
  /-- The time value of `new Date(status["started_at"])`; `NaN` for an invalid date. -/
  started_at : Num
  /-- The time value of `new Date(status["finished_at"])`; `NaN` for an invalid date. -/
  finished_at : Num
  deriving DecidableEq, Repr

/-- The remote host: the answer to each `GET`, by requested path.  A `none` body is
`null` for the first two and a value that is not an array for the third. -/
structure Network where
  project : String → Response (Option ProjectData)
  commit : String → Response (Option CommitData)
  statuses : String → Response (Option (List StatusRecord))

/-- The state of a promise. -/
inductive PromiseState where
  | pending
  | fulfilled (id : Nat)
  | rejected (err : JsError)
  deriving DecidableEq, Repr

/-- The promise `getProjectID` stores: the request it waits for and its state. -/
structure Promise where
  url : String
  state : PromiseState
  deriving DecidableEq, Repr

/-- The static state of `GitLabAPI`: the own properties of `_projectIDs`, keyed by the
encoded namespace (empty when the object has not been created yet).  `_projectIDs` is a
plain object, so a read also finds the members it inherits from `Object.prototype`. -/
structure GitLabAPI where
  _projectIDs : List (String × Promise)
  deriving DecidableEq, Repr

/-- The names of the members a plain object inherits from `Object.prototype`; each of
them is a function or an object, hence truthy, and none of them is a promise. -/
def objectPrototypeKeys : List String :=
  ["constructor", "__defineGetter__", "__defineSetter__", "hasOwnProperty",
    "__lookupGetter__", "__lookupSetter__", "isPrototypeOf", "propertyIsEnumerable",
    "toString", "valueOf", "__proto__", "toLocaleString"]

/-- What a read of `_projectIDs[key]` can yield besides `undefined`: a stored promise,
or the member of `Object.prototype` of that name. -/
inductive Value where
  | promise (p : Promise)
  | inherited (key : String)
  deriving DecidableEq, Repr

/-- The own property of `obj` named `key`, if any. -/
def getProp (key : String) : List (String × Promise) → Option Promise
  | [] => none
  | (k, v) :: rest => if k = key then some v else getProp key rest

/-- The property read `obj[key]`: the own property, else the inherited member. -/
def readProp (key : String) (obj : List (String × Promise)) : Option Value :=
  match getProp key obj with
  | some p => some (.promise p)
  | none => if key ∈ objectPrototypeKeys then some (.inherited key) else none

/-- The property write `obj[key] = v`. -/
def setProp (key : String) (v : Promise) : List (String × Promise) → List (String × Promise)
  | [] => [(key, v)]
  | (k, w) :: rest => if k = key then (k, v) :: rest else (k, w) :: setProp key v rest

/-- The `then` handler of `getProjectID` applied to the response body. -/
def getProjectIDThen (encoded : String) (data : Option ProjectData) : Except JsError Nat :=
  match data with
  | none => .error (.typeError ("GitLab didn't return data in 'GET /projects/" ++ encoded ++ "/'"))
  | some d =>
    match d.id with
    | none => .error (.referenceError ("GitLab didn't return a project ID in 'GET /projects/" ++ encoded ++ "/'"))
    | some 0 => .error (.referenceError ("GitLab didn't return a project ID in 'GET /projects/" ++ encoded ++ "/'"))
    | some (n + 1) => .ok (n + 1)

/-- `GitLabAPI.getProjectID(namespace, opts)` with `opts.token = token`: the value
returned, the state afterwards and the requests issued. -/
def getProjectID (encodeURIComponent : String → String) (namespace_ : String)
    (token : Option String) (api : GitLabAPI) : Value × GitLabAPI × List Effect :=
  let encoded := encodeURIComponent namespace_
  match readProp encoded api._projectIDs with
  | some v => (v, api, [])
  | none =>
    let p : Promise := ⟨"/api/v4/projects/" ++ encoded ++ "/", .pending⟩
    (.promise p, ⟨setProp encoded p api._projectIDs⟩,
      [.getJSON ("/api/v4/projects/" ++ encoded ++ "/") token])

/-- The state a promise takes when its chain settles with `result`. -/
def PromiseState.ofResult (result : Except JsError Nat) : PromiseState :=
  match result with
  | .ok id => .fulfilled id
  | .error err => .rejected err

/-- The settling of a promise with `result`: a pending promise takes the result, a
settled one keeps its state. -/
def settlePromise (result : Except JsError Nat) (p : Promise) : Promise :=
  match p.state with
  | .pending => ⟨p.url, PromiseState.ofResult result⟩
  | _ => p

/-- The arrival of the response for the promise stored under `encoded`. -/
def settle (encoded : String) (result : Except JsError Nat) (api : GitLabAPI) : GitLabAPI :=
  ⟨api._projectIDs.map fun kv =>
    (kv.1, if kv.1 = encoded then settlePromise result kv.2 else kv.2)⟩

/-- What awaiting a promise of `getProjectID` yields: its value when settled, else the
outcome of its `then` handler on the answer to its request. -/
def awaitPromise (net : Network) (encoded : String) (p : Promise) : Except JsError Nat :=
  match p.state with
  | .fulfilled id => .ok id
  | .rejected err => .error err
  | .pending =>
    match (net.project p.url).toExcept with
    | .error err => .error err
    | .ok data => getProjectIDThen encoded data

/-- The error of calling `then` on a value that has none. -/
def thenIsNotAFunction : JsError :=
  .typeError "GitLabAPI.getProjectID(...).then is not a function"

/-- What the chain of `loadTime` gets out of the value `getProjectID` returned: the
settlement of a promise; a member of `Object.prototype` has no `then`. -/
def awaitProject (net : Network) (encoded : String) (v : Value) : Except JsError Nat :=
  match v with
  | .promise p => awaitPromise net encoded p
  | .inherited _ => .error thenIsNotAFunction

/-! ## RecentTimes.loadTime -/

/-- The text of the link `loadTimeLink(opts)` creates: `opts.text || "Load Last Build Time"`. -/
def loadTimeLink (text : Option String) : String :=
  if truthy text then text.getD "" else "Load Last Build Time"

/-- The body of the `for` loop of `loadTime` for a record that is not skipped:
the `switch` over `status.status`. -/
def renderStatus (status : StatusRecord) : List Effect :=
  let diff := Num.sub status.finished_at status.started_at
  let formatted := formatTime diff
  if status.status = "created" ∨ status.status = "pending" ∨ status.status = "running" then
    [.append (loadTimeLink (some "Last Pipeline Running"))]
  else if status.status = "success" then
    [.append (loadTimeLink (some ("Previously took " ++ formatted)))]
  else if status.status = "failed" then
    [.append (loadTimeLink (some ("Previously failed after " ++ formatted)))]
  else if status.status = "canceled" then
    [.append (loadTimeLink (some ("Previously canceled after " ++ formatted)))]
  else
    [.consoleError ("Unknown job status: " ++ status.status), .append (loadTimeLink none)]

/-- The `for` loop of `loadTime` over the status records: a record is skipped when
`!status.name || status.name !== name`; the first other record is rendered and the
loop is left. -/
def statusLoop (name : Option String) : List StatusRecord → List Effect
  | [] => []
  | status :: rest =>
    if !truthy status.name || status.name != name then statusLoop name rest
    else renderStatus status

/-- The last `then` handler of `loadTime`: the effects and the error thrown, if any. -/
def statusesThen (name : Option String) (statuses : Option (List StatusRecord)) :
    List Effect × Option JsError :=
  match statuses with
  | none => ([], some (.typeError "RecentTimes#loadTime expected to get an array of job statuses."))
  | some records => (statusLoop name records, none)

/-- The `then` handler of `loadTime` for the commit body: the parent whose status is
requested, or the error thrown. -/
def commitThen (commit : String) (body : Option CommitData) : Except JsError String :=
  match body with
  | none => .error (nullProperty "parent_ids")
  | some b =>
    match b.parent_ids with
    | none => .error (.referenceError ("Couldn't find parent commits for " ++ commit))
    | some [] => .error (.referenceError ("Couldn't find parent commits for " ++ commit))
    | some (parent :: _) => .ok parent

/-- The last stage of the chain: the settlement of the status request followed by the
last `then` handler. -/
def statusStage (net : Network) (url : String) (name : Option String) :
    List Effect × Option JsError :=
  match (net.statuses url).toExcept with
  | .error err => ([], some err)
  | .ok statuses => statusesThen name statuses

/-- The promise chain of `loadTime` up to its `catch`: the effects in order and the
rejection that reaches the `catch`, if any. -/
def loadTimeChain (net : Network) (commit : String) (stage name token : Option String)
    (project : Except JsError Nat) : List Effect × Option JsError :=
  match project with
  | .error err => ([], some err)
  | .ok project =>
    let commitRequest := [Effect.gmGetValue, Effect.getJSON (getCommitUrl commit project) token]
    match (net.commit (getCommitUrl commit project)).toExcept with
    | .error err => (commitRequest, some err)
    | .ok body =>
      match commitThen commit body with
      | .error err => (commitRequest, some err)
      | .ok parent =>
        let url := getCommitStatusUrl parent project stage name
        let statusRequest := [Effect.gmGetValue, Effect.getJSON url token]
        (commitRequest ++ statusRequest ++ (statusStage net url name).1,
          (statusStage net url name).2)

/-- The effects of the `catch` handler of `loadTime` for the rejection that reaches it. -/
def catchEffects (rejection : Option JsError) : List Effect :=
  match rejection with
  | none => []
  | some err => [.append (loadTimeLink none), .consoleErrorOf err]

/-- The chain of `loadTime` with its `catch` handler. -/
def loadTimeCatch (chain : List Effect × Option JsError) : List Effect :=
  chain.1 ++ catchEffects chain.2

/-- The test `!this.token && !this.promptForToken()`: the effects and the token in
store afterwards when the run goes on. -/
def requireToken (page : Page) : List Effect × Option String :=
  if truthy page.token then ([.gmGetValue], page.token)
  else
    match page.promptAnswer with
    | some t => if t != "" then ([.gmGetValue, .prompt, .gmSetValue t], some t)
                else ([.gmGetValue, .prompt], none)
    | none => ([.gmGetValue, .prompt], none)

/-- The message of the `alert` of `loadTime`. -/
def noCommitMessage : String :=
  "Sorry, we couldn't figure out what the current commit is.  See console verbose messages."

/-- The result of one call of `loadTime`. -/
structure Run where
  /-- The effects, in order. -/
  effects : List Effect
  /-- The exception that leaves `loadTime`, if any. -/
  thrown : Option JsError
  /-- The state of `GitLabAPI` afterwards. -/
  api : GitLabAPI
  deriving DecidableEq, Repr

/-- `RecentTimes.loadTime(el)`, run to completion. -/
def loadTime (encodeURIComponent : String → String) (net : Network) (page : Page)
    (api : GitLabAPI) (el : Anchor) : Run :=
  let commit := getCommit page
  match getStageFromRecentTimes el with
  | .error err => ⟨[], some err, api⟩
  | .ok stage =>
    match getBuildNameFromRecentTimes el with
    | .error err => ⟨[], some err, api⟩
    | .ok name =>
      if !truthy commit then ⟨[.alert noCommitMessage], none, api⟩
      else
        match requireToken page with
        | (tokenEffects, none) => ⟨tokenEffects, none, api⟩
        | (tokenEffects, some token) =>
          if !el.loadTimeLink then
            ⟨tokenEffects, some (.typeError "removeChild: parameter 1 is not of type Node"), api⟩
          else
            match getProjectName page with
            | .error err => ⟨tokenEffects ++ [.removeChild], some err, api⟩
            | .ok projectName =>
              let encoded := encodeURIComponent projectName
              let call := getProjectID encodeURIComponent projectName (some token) api
              match call.1 with
              | .inherited _ =>
                ⟨tokenEffects ++ [.removeChild, .gmGetValue] ++ call.2.2,
                  some thenIsNotAFunction, call.2.1⟩
              | .promise _ =>
                let project := awaitProject net encoded call.1
                ⟨tokenEffects ++ [.removeChild, .gmGetValue] ++ call.2.2 ++
                    loadTimeCatch
                      (loadTimeChain net (commit.getD "") stage name (some token) project),
                  none, settle encoded project call.2.1⟩

/-! ## Sample data -/

/-- A stage header row named `test`. -/
def sampleStageRow : Sibling := ⟨some "TR", some "test", "Test"⟩

/-- A job-name cell with text `unit-tests`. -/
def sampleNameCell : Sibling := ⟨some "TD", none, " unit-tests\n"⟩

/-- An anchor in the duration cell of a job row below `sampleStageRow`. -/
def sampleAnchor : Anchor :=
  ⟨some ⟨"TD", [⟨none, none, "\n"⟩, sampleNameCell], some ⟨"TR", [⟨none, none, "\n"⟩, sampleStageRow]⟩⟩, true⟩

/-- A pipeline page of project `org/proj` showing commit `abc123`. -/
def samplePage : Page :=
  ⟨some "/org/proj/commit/abc123", "/org/proj/pipelines/7", some "secret", none⟩

/-- A stand-in for `encodeURIComponent` that escapes the slash. -/
def sampleEncode (s : String) : String :=
  String.mk (s.data.flatMap fun c => if c = '/' then "%2F".data else [c])

/-- A host on which project `org/proj` has id 42, every commit has parent `def456`
and the status list is the given one. -/
def sampleNetwork (statuses : List StatusRecord) : Network :=
  ⟨fun _ => .ok (some ⟨some 42⟩), fun _ => .ok (some ⟨some ["def456"]⟩), fun _ => .ok (some statuses)⟩

/-- A record whose name is the empty string, for a job that succeeded after 65 s. -/
def emptyNameRecord : StatusRecord := ⟨some "", "success", .int 0, .int 65000⟩

/-- An anchor in the first job row of a table without a stage header: only a text node
and a row without a stage marker stand before its row. -/
def firstRowAnchor : Anchor :=
  ⟨some ⟨"TD", [⟨none, none, "\n"⟩, sampleNameCell],
    some ⟨"TR", [⟨none, none, "\n"⟩, ⟨some "TR", none, "Status Job Duration"⟩]⟩⟩, true⟩

/-- An anchor in the first cell of its row: only a text node stands before its cell. -/
def firstCellAnchor : Anchor :=
  ⟨some ⟨"TD", [⟨none, none, "\n"⟩], some ⟨"TR", [sampleStageRow]⟩⟩, true⟩

/-- A pipeline page whose only commit link leads to the commit list. -/
def noCommitPage : Page :=
  ⟨some "/org/proj/commits/master", "/org/proj/pipelines/7", some "secret", none⟩

/-- The status record of the end-to-end example: `unit-tests` failed, started at
2024-01-01T00:00:00Z and finished at 2024-01-01T00:05:30Z. -/
def sampleFailedRecord : StatusRecord :=
  ⟨some "unit-tests", "failed", .int 1704067200000, .int 1704067530000⟩

/-! ## Auxiliary notions used to state the properties -/

/-- The text `&k=v` repeated for each property, in order. -/
def queryTail : List (String × String) → String
  | [] => ""
  | (opt, val) :: rest => "&" ++ opt ++ "=" ++ val ++ queryTail rest

/-- The query string the options stand for: `?k=v` for the first property and `&k=v`
for each later one, nothing for no property. -/
def queryString : List (String × String) → String
  | [] => ""
  | (opt, val) :: rest => "?" ++ opt ++ "=" ++ val ++ queryTail rest

/-- Something that happens to the project cache: a call of `getProjectID`, or the
arrival of the response a stored promise waits for. -/
inductive Event where
  | call (namespace_ : String) (token : Option String)
  | response (encoded : String) (result : Except JsError Nat)

/-- The state of `GitLabAPI` after an event. -/
def step (encodeURIComponent : String → String) (api : GitLabAPI) : Event → GitLabAPI
  | .call namespace_ token => (getProjectID encodeURIComponent namespace_ token api).2.1
  | .response encoded result => settle encoded result api

/-- The state of `GitLabAPI` after a sequence of events. -/
def runEvents (encodeURIComponent : String → String) (api : GitLabAPI) : List Event → GitLabAPI
  | [] => api
  | ev :: rest => runEvents encodeURIComponent (step encodeURIComponent api ev) rest

/-- The fields of a formatted time: the character lists between the colons. -/
def splitColon : List Char → List (List Char)
  | [] => [[]]
  | c :: cs =>
    if c = ':' then [] :: splitColon cs
    else
      match splitColon cs with
      | [] => [[c]]
      | field :: fields => (c :: field) :: fields

/-- The number a non-empty list of decimal digits denotes. -/
def digitsValue (ds : List Char) : Option Nat :=
  if ds.isEmpty then none
  else ds.foldl (fun acc c => acc.bind fun n => if c.isDigit then some (10 * n + (c.toNat - 48)) else none)
    (some 0)

/-- The numeric equivalent, in milliseconds, of a string `MM:SS` or `H:MM:SS`. -/
def numericEquivalent (s : String) : Option Nat :=
  match (splitColon s.data).map digitsValue with
  | [some mm, some ss] => some ((60 * mm + ss) * 1000)
  | [some h, some mm, some ss] => some ((3600 * h + 60 * mm + ss) * 1000)
  | _ => none

/-! ## Lemmas -/

theorem urlOptsLoop_true (url : String) (opts : List (String × String)) :
    urlOptsLoop url true opts = url ++ queryTail opts := by
  induction opts generalizing url with
  | nil => simp [urlOptsLoop, queryTail]
  | cons kv rest ih =>
    obtain ⟨k, v⟩ := kv
    simp [urlOptsLoop, queryTail, ih, String.append_assoc]

theorem urlOpts_eq (url : String) (opts : List (String × String)) :
    urlOpts url opts = url ++ queryString opts := by
  cases opts with
  | nil => simp [urlOpts, urlOptsLoop, queryString]
  | cons kv rest =>
    obtain ⟨k, v⟩ := kv
    simp [urlOpts, urlOptsLoop, queryString, urlOptsLoop_true, String.append_assoc]

theorem getProp_setProp_self (key : String) (v : Promise) (obj : List (String × Promise)) :
    getProp key (setProp key v obj) = some v := by
  induction obj with
  | nil => simp [setProp, getProp]
  | cons kv rest ih =>
    obtain ⟨k, w⟩ := kv
    by_cases h : k = key
    · simp [setProp, getProp, h]
    · simp [setProp, getProp, h, ih]

theorem getProp_setProp_ne (key other : String) (v : Promise) (obj : List (String × Promise))
    (h : other ≠ key) : getProp other (setProp key v obj) = getProp other obj := by
  induction obj with
  | nil =>
    have h2 : ¬ key = other := fun e => h e.symm
    simp [setProp, getProp, h2]
  | cons kv rest ih =>
    obtain ⟨k, w⟩ := kv
    by_cases hk : k = key
    · subst hk
      have h2 : ¬ k = other := fun e => h e.symm
      simp [setProp, getProp, h2]
    · by_cases ho : k = other
      · subst ho
        simp [setProp, getProp, hk]
      · simp [setProp, getProp, hk, ho, ih]

theorem settlePromise_url (result : Except JsError Nat) (p : Promise) :
    (settlePromise result p).url = p.url := by
  unfold settlePromise
  cases p.state <;> rfl

theorem settlePromise_settled (result : Except JsError Nat) (p : Promise)
    (h : p.state ≠ .pending) : settlePromise result p = p := by
  unfold settlePromise
  cases hs : p.state with
  | pending => exact absurd hs h
  | fulfilled id => rfl
  | rejected err => rfl

theorem getProp_settle (key encoded : String) (result : Except JsError Nat) (api : GitLabAPI)
    (P : Promise) (h : getProp key api._projectIDs = some P) :
    ∃ p, getProp key (settle encoded result api)._projectIDs = some p ∧ p.url = P.url ∧
      (P.state ≠ .pending → p = P) := by
  obtain ⟨obj⟩ := api
  simp only [settle]
  simp only at h
  induction obj with
  | nil => simp [getProp] at h
  | cons kv rest ih =>
    obtain ⟨k, w⟩ := kv
    by_cases hk : k = key
    · subst hk
      simp only [getProp, if_true] at h
      cases h
      by_cases he : k = encoded
      · subst he
        exact ⟨settlePromise result P, by simp [getProp], settlePromise_url result P,
          settlePromise_settled result P⟩
      · exact ⟨P, by simp [getProp, he], rfl, fun _ => rfl⟩
    · simp only [getProp, hk, if_false] at h
      obtain ⟨p, hp, hu, hst⟩ := ih h
      refine ⟨p, ?_, hu, hst⟩
      by_cases he : k = encoded
      · subst he
        simpa [getProp, hk] using hp
      · simpa [getProp, he, hk] using hp

theorem step_bound (encodeURIComponent : String → String) (key : String) (ev : Event)
    (api : GitLabAPI) (P : Promise) (h : getProp key api._projectIDs = some P) :
    ∃ p, getProp key (step encodeURIComponent api ev)._projectIDs = some p ∧ p.url = P.url ∧
      (P.state ≠ .pending → p = P) := by
  cases ev with
  | call namespace_ token =>
    simp only [step, getProjectID]
    cases hc : readProp (encodeURIComponent namespace_) api._projectIDs with
    | some v => exact ⟨P, by simpa using h, rfl, fun _ => rfl⟩
    | none =>
      have hne : key ≠ encodeURIComponent namespace_ := by
        intro e
        rw [e] at h
        simp [readProp, h] at hc
      exact ⟨P, by simpa [getProp_setProp_ne _ _ _ _ hne] using h, rfl, fun _ => rfl⟩
  | response encoded result => exact getProp_settle key encoded result api P h

theorem runEvents_bound (encodeURIComponent : String → String) (key : String)
    (events : List Event) (api : GitLabAPI) (P : Promise)
    (h : getProp key api._projectIDs = some P) :
    ∃ p, getProp key (runEvents encodeURIComponent api events)._projectIDs = some p ∧
      p.url = P.url ∧ (P.state ≠ .pending → p = P) := by
  induction events generalizing api P with
  | nil => exact ⟨P, h, rfl, fun _ => rfl⟩
  | cons ev rest ih =>
    obtain ⟨q, hq, hqu, hqs⟩ := step_bound encodeURIComponent key ev api P h
    obtain ⟨p, hp, hpu, hps⟩ := ih (step encodeURIComponent api ev) q hq
    refine ⟨p, hp, hpu.trans hqu, ?_⟩
    intro hP
    have hqP : q = P := hqs hP
    subst hqP
    exact hps hP

theorem getProjectID_hit (encodeURIComponent : String → String) (api : GitLabAPI)
    (namespace_ : String) (token : Option String) (p : Promise)
    (h : getProp (encodeURIComponent namespace_) api._projectIDs = some p) :
    getProjectID encodeURIComponent namespace_ token api = (.promise p, api, []) := by
  simp [getProjectID, readProp, h]

theorem getProjectID_miss (encodeURIComponent : String → String) (api : GitLabAPI)
    (namespace_ : String) (token : Option String)
    (hkey : encodeURIComponent namespace_ ∉ objectPrototypeKeys)
    (h : getProp (encodeURIComponent namespace_) api._projectIDs = none) :
    getProjectID encodeURIComponent namespace_ token api
      = (.promise ⟨"/api/v4/projects/" ++ encodeURIComponent namespace_ ++ "/", .pending⟩,
          ⟨setProp (encodeURIComponent namespace_)
            ⟨"/api/v4/projects/" ++ encodeURIComponent namespace_ ++ "/", .pending⟩
            api._projectIDs⟩,
          [.getJSON ("/api/v4/projects/" ++ encodeURIComponent namespace_ ++ "/") token]) := by
  simp [getProjectID, readProp, h, hkey]

theorem getProjectID_stored (encodeURIComponent : String → String) (api : GitLabAPI)
    (namespace_ : String) (token : Option String)
    (hkey : encodeURIComponent namespace_ ∉ objectPrototypeKeys) :
    ∃ p : Promise, (getProjectID encodeURIComponent namespace_ token api).1 = .promise p ∧
      getProp (encodeURIComponent namespace_)
        (getProjectID encodeURIComponent namespace_ token api).2.1._projectIDs = some p := by
  cases hc : getProp (encodeURIComponent namespace_) api._projectIDs with
  | some q =>
    rw [getProjectID_hit encodeURIComponent api namespace_ token q hc]
    exact ⟨q, rfl, hc⟩
  | none =>
    rw [getProjectID_miss encodeURIComponent api namespace_ token hkey hc]
    exact ⟨_, rfl, getProp_setProp_self _ _ _⟩

theorem getProjectID_inherited (encodeURIComponent : String → String) (api : GitLabAPI)
    (namespace_ : String) (token : Option String)
    (hkey : encodeURIComponent namespace_ ∈ objectPrototypeKeys)
    (h : getProp (encodeURIComponent namespace_) api._projectIDs = none) :
    getProjectID encodeURIComponent namespace_ token api
      = (.inherited (encodeURIComponent namespace_), api, []) := by
  simp [getProjectID, readProp, h, hkey]

theorem getProjectID_other_keys (encodeURIComponent : String → String) (api : GitLabAPI)
    (namespace_ : String) (token : Option String) (key : String)
    (hne : key ≠ encodeURIComponent namespace_) :
    getProp key (getProjectID encodeURIComponent namespace_ token api).2.1._projectIDs
      = getProp key api._projectIDs := by
  simp only [getProjectID]
  cases hc : readProp (encodeURIComponent namespace_) api._projectIDs with
  | some v => rfl
  | none => simp [getProp_setProp_ne _ _ _ _ hne]

/-! ## GitLabAPI: the properties -/

/-- C10: the path `getCommitStatus` requests is the base path followed by
`?stage=..&name=..` when both are present (not `null`, not empty), by `?stage=..` or
`?name=..` when one is, and by nothing when neither is; in general `urlOpts` appends
the properties in order as `key=value`, the first after `?` and each later one after
`&`, and returns the URL unchanged for no property. -/
theorem getCommitStatus_request_path (project : Nat) (sha : String) (stage name : Option String) :
    getCommitStatusUrl sha project stage name
        = "/api/v4/projects/" ++ toString project ++ "/repository/commits/" ++ sha ++ "/statuses" ++
          (match truthy stage, truthy name with
            | true, true => "?stage=" ++ stage.getD "" ++ "&name=" ++ name.getD ""
            | true, false => "?stage=" ++ stage.getD ""
            | false, true => "?name=" ++ name.getD ""
            | false, false => "")
      ∧ (∀ url : String, urlOpts url [] = url)
      ∧ (∀ (url opt val : String) (rest : List (String × String)),
          urlOpts url ((opt, val) :: rest) = url ++ "?" ++ opt ++ "=" ++ val ++ queryTail rest)
      ∧ (∀ (opt val : String) (rest : List (String × String)),
          queryTail ((opt, val) :: rest) = "&" ++ opt ++ "=" ++ val ++ queryTail rest)
      ∧ queryTail [] = "" := by
  refine ⟨?_, ?_, ?_, ?_, ?_⟩
  · have hb : ∀ x : String, x ≠ "" → (x != "") = true := fun x hx => by simp [hx]
    rcases stage with _ | s <;> rcases name with _ | n
    · simp [getCommitStatusUrl, statusAttrs, truthy, urlOpts_eq, queryString]
    · by_cases hn : n = ""
      · simp [getCommitStatusUrl, statusAttrs, truthy, urlOpts_eq, queryString, hn]
      · simp [getCommitStatusUrl, statusAttrs, truthy, urlOpts_eq, queryString, queryTail,
          hb n hn, String.append_assoc]
    · by_cases hs : s = ""
      · simp [getCommitStatusUrl, statusAttrs, truthy, urlOpts_eq, queryString, hs]
      · simp [getCommitStatusUrl, statusAttrs, truthy, urlOpts_eq, queryString, queryTail,
          hb s hs, String.append_assoc]
    · by_cases hs : s = "" <;> by_cases hn : n = ""
      · simp [getCommitStatusUrl, statusAttrs, truthy, urlOpts_eq, queryString, hs, hn]
      · simp [getCommitStatusUrl, statusAttrs, truthy, urlOpts_eq, queryString, queryTail,
          hs, hb n hn, String.append_assoc]
      · simp [getCommitStatusUrl, statusAttrs, truthy, urlOpts_eq, queryString, queryTail,
          hn, hb s hs, String.append_assoc]
      · simp [getCommitStatusUrl, statusAttrs, truthy, urlOpts_eq, queryString, queryTail,
          hb s hs, hb n hn, String.append_assoc]
  · intro url
    rfl
  · intro url opt val rest
    simp [urlOpts_eq, queryString, String.append_assoc]
  · intro opt val rest
    rfl
  · rfl

/-- The memoisation of `getProjectID` for a namespace whose encoded form names no member
of `Object.prototype`.  When nothing is stored under the key, the call stores a pending
promise there and issues exactly one `GET /api/v4/projects/:encoded/`; when a promise is
stored there, whatever its state, the call issues no request, leaves the cache as it is
and returns that promise; after a call, however many calls and responses follow, the key
stays bound to the promise of that same request (unchanged once it has settled) and a
further call with the namespace returns it without a request; no call changes what is
stored under another key. -/
theorem getProjectID_memo_of_own_key (encodeURIComponent : String → String)
    (api : GitLabAPI) (namespace_ : String) (token : Option String)
    (hkey : encodeURIComponent namespace_ ∉ objectPrototypeKeys) :
    (getProp (encodeURIComponent namespace_) api._projectIDs = none →
        getProjectID encodeURIComponent namespace_ token api
          = (.promise ⟨"/api/v4/projects/" ++ encodeURIComponent namespace_ ++ "/", .pending⟩,
              ⟨setProp (encodeURIComponent namespace_)
                ⟨"/api/v4/projects/" ++ encodeURIComponent namespace_ ++ "/", .pending⟩
                api._projectIDs⟩,
              [.getJSON ("/api/v4/projects/" ++ encodeURIComponent namespace_ ++ "/") token]))
      ∧ (∀ p : Promise, getProp (encodeURIComponent namespace_) api._projectIDs = some p →
          getProjectID encodeURIComponent namespace_ token api = (.promise p, api, []))
      ∧ (∀ (events : List Event) (token2 : Option String), ∃ first p : Promise,
          (getProjectID encodeURIComponent namespace_ token api).1 = .promise first ∧
          p.url = first.url ∧ (first.state ≠ .pending → p = first) ∧
          getProjectID encodeURIComponent namespace_ token2
              (runEvents encodeURIComponent
                (getProjectID encodeURIComponent namespace_ token api).2.1 events)
            = (.promise p, runEvents encodeURIComponent
                (getProjectID encodeURIComponent namespace_ token api).2.1 events, []))
      ∧ (∀ key : String, key ≠ encodeURIComponent namespace_ →
          getProp key (getProjectID encodeURIComponent namespace_ token api).2.1._projectIDs
            = getProp key api._projectIDs) := by
  refine ⟨?_, ?_, ?_, ?_⟩
  · intro h
    exact getProjectID_miss encodeURIComponent api namespace_ token hkey h
  · intro p h
    exact getProjectID_hit encodeURIComponent api namespace_ token p h
  · intro events token2
    obtain ⟨first, hfirst, hstored⟩ :=
      getProjectID_stored encodeURIComponent api namespace_ token hkey
    obtain ⟨p, hp, hu, hs⟩ := runEvents_bound encodeURIComponent
      (encodeURIComponent namespace_) events _ first hstored
    exact ⟨first, p, hfirst, hu, hs,
      getProjectID_hit encodeURIComponent _ namespace_ token2 p hp⟩
  · intro key hne
    exact getProjectID_other_keys encodeURIComponent api namespace_ token key hne

/-- An instance of the memoisation: the first call for `org/proj` on an empty cache
issues the one request, and a call on a cache that holds a fulfilled promise for it
issues none. -/
theorem getProjectID_memo_of_own_key_witness :
    getProjectID sampleEncode "org/proj" (some "secret") ⟨[]⟩
        = (.promise ⟨"/api/v4/projects/" ++ sampleEncode "org/proj" ++ "/", .pending⟩,
            ⟨setProp (sampleEncode "org/proj")
              ⟨"/api/v4/projects/" ++ sampleEncode "org/proj" ++ "/", .pending⟩ []⟩,
            [.getJSON ("/api/v4/projects/" ++ sampleEncode "org/proj" ++ "/") (some "secret")])
      ∧ getProjectID sampleEncode "org/proj" (some "other")
          ⟨[("org%2Fproj", ⟨"/api/v4/projects/org%2Fproj/", .fulfilled 42⟩)]⟩
        = (.promise ⟨"/api/v4/projects/org%2Fproj/", .fulfilled 42⟩,
            ⟨[("org%2Fproj", ⟨"/api/v4/projects/org%2Fproj/", .fulfilled 42⟩)]⟩, []) :=
  ⟨(getProjectID_memo_of_own_key sampleEncode ⟨[]⟩ "org/proj" (some "secret")
      (by decide)).1 rfl,
    (getProjectID_memo_of_own_key sampleEncode
      ⟨[("org%2Fproj", ⟨"/api/v4/projects/org%2Fproj/", .fulfilled 42⟩)]⟩ "org/proj"
      (some "other") (by decide)).2.1 ⟨"/api/v4/projects/org%2Fproj/", .fulfilled 42⟩ rfl⟩

/-- C6, the code at the failing input: on a fresh page the first call of `getProjectID`
for the namespace `constructor` finds the member `constructor` that `_projectIDs`
inherits from `Object.prototype`: it issues no request, stores nothing and returns that
member, which is not a promise; every later call does the same.  For `org/proj` the
first call issues the one `GET /api/v4/projects/org%2Fproj/` and stores its promise. -/
theorem getProjectID_inherited_member :
    sampleEncode "constructor" = "constructor" ∧
      getProjectID sampleEncode "constructor" (some "secret") ⟨[]⟩
        = (.inherited "constructor", ⟨[]⟩, []) ∧
      getProjectID sampleEncode "constructor" (some "secret") ⟨[]⟩
        ≠ (.promise ⟨"/api/v4/projects/constructor/", .pending⟩,
            ⟨[("constructor", ⟨"/api/v4/projects/constructor/", .pending⟩)]⟩,
            [.getJSON "/api/v4/projects/constructor/" (some "secret")]) ∧
      getProjectID sampleEncode "org/proj" (some "secret") ⟨[]⟩
        = (.promise ⟨"/api/v4/projects/org%2Fproj/", .pending⟩,
            ⟨[("org%2Fproj", ⟨"/api/v4/projects/org%2Fproj/", .pending⟩)]⟩,
            [.getJSON "/api/v4/projects/org%2Fproj/" (some "secret")]) := by
  decide

/-! ## The status handler -/

theorem literal_append_ne_empty (a b : String) (h : a ≠ "") : a ++ b ≠ "" := by
  intro e
  apply h
  have hd : (a ++ b).data = [] := by rw [e]
  rw [String.data_append] at hd
  exact String.ext (List.append_eq_nil.mp hd).1

theorem loadTimeLink_text (a b : String) (h : a ≠ "") :
    loadTimeLink (some (a ++ b)) = a ++ b := by
  have hne : a ++ b ≠ "" := literal_append_ne_empty a b h
  simp [loadTimeLink, truthy, hne]

theorem statusLoop_skip (name : Option String) (before rest : List StatusRecord)
    (h : ∀ r ∈ before, r.name ≠ name) :
    statusLoop name (before ++ rest) = statusLoop name rest := by
  induction before with
  | nil => rfl
  | cons r more ih =>
    have hr : r.name ≠ name := h r (List.mem_cons_self r more)
    have hmore : ∀ x ∈ more, x.name ≠ name := fun x hx => h x (List.mem_cons_of_mem r hx)
    simp [statusLoop, hr, ih hmore]

theorem statusLoop_no_match (name : Option String) (records : List StatusRecord)
    (h : ∀ r ∈ records, r.name ≠ name) : statusLoop name records = [] := by
  have := statusLoop_skip name records [] h
  simpa [statusLoop] using this

theorem statusLoop_issues_no_request (name : Option String) (records : List StatusRecord) :
    ∀ e ∈ statusLoop name records, ∀ (url : String) (token : Option String),
      e ≠ .getJSON url token := by
  induction records with
  | nil => simp [statusLoop]
  | cons r more ih =>
    simp only [statusLoop]
    split
    · exact ih
    · intro e he url token
      simp only [renderStatus] at he
      split at he
      · simp at he; subst he; simp
      · split at he
        · simp at he; subst he; simp
        · split at he
          · simp at he; subst he; simp
          · split at he
            · simp at he; subst he; simp
            · simp at he
              rcases he with he | he <;> subst he <;> simp

/-- C1 (as amended): for a target job name that is a non-empty string, when some record
has that name, the status handler renders exactly the outcome of the first such record,
whatever comes before (records of other names) and after it: `Last Pipeline Running` for
`created`, `pending` and `running` whatever the time stamps, `Previously took`,
`Previously failed after`, `Previously canceled after` followed by the formatted
`finished_at - started_at` for `success`, `failed`, `canceled`, and the default link
(after a logged message) for any other status. -/
theorem statusesThen_first_match (name : String) (hname : name ≠ "")
    (before after : List StatusRecord) (status : StatusRecord)
    (hbefore : ∀ r ∈ before, r.name ≠ some name) (hstatus : status.name = some name) :
    ((status.status = "created" ∨ status.status = "pending" ∨ status.status = "running") →
        statusesThen (some name) (some (before ++ status :: after))
          = ([.append "Last Pipeline Running"], none))
      ∧ (status.status = "success" →
        statusesThen (some name) (some (before ++ status :: after))
          = ([.append ("Previously took " ++
                formatTime (Num.sub status.finished_at status.started_at))], none))
      ∧ (status.status = "failed" →
        statusesThen (some name) (some (before ++ status :: after))
          = ([.append ("Previously failed after " ++
                formatTime (Num.sub status.finished_at status.started_at))], none))
      ∧ (status.status = "canceled" →
        statusesThen (some name) (some (before ++ status :: after))
          = ([.append ("Previously canceled after " ++
                formatTime (Num.sub status.finished_at status.started_at))], none))
      ∧ ((status.status ≠ "created" ∧ status.status ≠ "pending" ∧ status.status ≠ "running" ∧
            status.status ≠ "success" ∧ status.status ≠ "failed" ∧ status.status ≠ "canceled") →
        statusesThen (some name) (some (before ++ status :: after))
          = ([.consoleError ("Unknown job status: " ++ status.status),
              .append "Load Last Build Time"], none)) := by
  have hloop : statusesThen (some name) (some (before ++ status :: after))
      = (renderStatus status, none) := by
    simp [statusesThen, statusLoop_skip (some name) before (status :: after) hbefore,
      statusLoop, hstatus, truthy, hname]
  rw [hloop]
  refine ⟨?_, ?_, ?_, ?_, ?_⟩
  · intro h
    have hl : loadTimeLink (some "Last Pipeline Running") = "Last Pipeline Running" := by decide
    simp [renderStatus, h, hl]
  · intro h
    simp [renderStatus, h, loadTimeLink_text "Previously took " _ (by decide)]
  · intro h
    simp [renderStatus, h, loadTimeLink_text "Previously failed after " _ (by decide)]
  · intro h
    simp [renderStatus, h, loadTimeLink_text "Previously canceled after " _ (by decide)]
  · intro h
    obtain ⟨h1, h2, h3, h4, h5, h6⟩ := h
    have hl : loadTimeLink none = "Load Last Build Time" := by decide
    simp [renderStatus, h1, h2, h3, h4, h5, h6, hl]

/-- Witness of C1 (as amended): the job `unit-tests`, failed after 5 min 30 s, listed
after a record of another job and before a second record of the same name. -/
theorem statusesThen_first_match_witness :
    statusesThen (some "unit-tests")
        (some ([⟨some "lint", "success", .int 0, .int 1000⟩] ++
          (⟨some "unit-tests", "failed", .int 1704067200000, .int 1704067530000⟩ : StatusRecord) ::
          [⟨some "unit-tests", "success", .int 0, .int 1000⟩]))
      = ([.append ("Previously failed after " ++
            formatTime (Num.sub (.int 1704067530000) (.int 1704067200000)))], none) :=
  (statusesThen_first_match "unit-tests" (by decide)
    [⟨some "lint", "success", .int 0, .int 1000⟩]
    [⟨some "unit-tests", "success", .int 0, .int 1000⟩]
    ⟨some "unit-tests", "failed", .int 1704067200000, .int 1704067530000⟩
    (by decide) rfl).2.2.1 rfl

/-- C1, counterexample: for the target name `""` a record of that very name is skipped
(its name is falsy), so that no outcome at all is rendered, not `Previously took 01:05`. -/
theorem statusesThen_empty_name_counterexample :
    emptyNameRecord.name = some "" ∧ emptyNameRecord.status = "success" ∧
      statusesThen (some "") (some [emptyNameRecord]) = ([], none) ∧
      statusesThen (some "") (some [emptyNameRecord])
        ≠ ([.append ("Previously took " ++
              formatTime (Num.sub emptyNameRecord.finished_at emptyNameRecord.started_at))], none) := by
  decide

/-! ## DOM traversal -/

theorem stageLoop_runs_off (siblings : List Sibling)
    (h : ∀ sib ∈ siblings, stageLoopContinues sib = true) :
    stageLoop siblings = .error (nullProperty "previousSibling") := by
  induction siblings with
  | nil => rfl
  | cons sib rest ih =>
    have hs : stageLoopContinues sib = true := h sib (List.mem_cons_self sib rest)
    have hrest : ∀ x ∈ rest, stageLoopContinues x = true :=
      fun x hx => h x (List.mem_cons_of_mem sib hx)
    simp [stageLoop, hs, ih hrest]

theorem buildNameLoop_runs_off (siblings : List Sibling)
    (h : ∀ sib ∈ siblings, buildNameLoopContinues sib = true) :
    buildNameLoop siblings = .error (nullProperty "previousSibling") := by
  induction siblings with
  | nil => rfl
  | cons sib rest ih =>
    have hs : buildNameLoopContinues sib = true := h sib (List.mem_cons_self sib rest)
    have hrest : ∀ x ∈ rest, buildNameLoopContinues x = true :=
      fun x hx => h x (List.mem_cons_of_mem sib hx)
    simp [buildNameLoop, hs, ih hrest]

/-- C8, the code at the failing inputs: where no stage row stands before the row of the
anchor, `getStageFromRecentTimes` raises a `TypeError` on reading `previousSibling` of
`null`, and where no cell stands before the cell of the anchor, so does
`getBuildNameFromRecentTimes`; neither returns `null`. -/
theorem traversals_raise_off_the_chain :
    getStageFromRecentTimes firstRowAnchor = .error (nullProperty "previousSibling") ∧
      getBuildNameFromRecentTimes firstCellAnchor = .error (nullProperty "previousSibling") ∧
      getStageFromRecentTimes firstRowAnchor ≠ .ok none ∧
      getBuildNameFromRecentTimes firstCellAnchor ≠ .ok none := by
  refine ⟨rfl, rfl, ?_, ?_⟩
  · intro h
    have h2 : getStageFromRecentTimes firstRowAnchor = .error (nullProperty "previousSibling") := rfl
    rw [h2] at h
    cases h
  · intro h
    have h2 : getBuildNameFromRecentTimes firstCellAnchor
        = .error (nullProperty "previousSibling") := rfl
    rw [h2] at h
    cases h

/-! ## The pipeline -/

theorem matchCommitAt_ne_empty (s : List Char) (sha : String) (h : matchCommitAt s = some sha) :
    sha ≠ "" := by
  unfold matchCommitAt at h
  split at h
  · cases h
  · rename_i rest _
    by_cases he : (List.takeWhile Char.isAlphanum rest).isEmpty = true
    · simp [he] at h
    · simp only [he] at h
      simp at h
      intro e
      rw [← h] at e
      have hd := congrArg String.data e
      simp at hd
      simp [hd] at he

theorem matchCommit_ne_empty (s : List Char) (sha : String) (h : matchCommit s = some sha) :
    sha ≠ "" := by
  induction s with
  | nil => simp [matchCommit] at h
  | cons c cs ih =>
    simp only [matchCommit] at h
    cases hm : matchCommitAt (c :: cs) with
    | some found =>
      rw [hm] at h
      simp at h
      subst h
      exact matchCommitAt_ne_empty _ _ hm
    | none =>
      rw [hm] at h
      exact ih h

theorem getCommit_truthy (page : Page) (commit : String) (h : getCommit page = some commit) :
    truthy (some commit) = true := by
  unfold getCommit at h
  cases hl : page.commitLink with
  | none => simp [hl] at h
  | some href =>
    simp only [hl] at h
    simp [truthy, matchCommit_ne_empty _ _ h]

/-- The hard stop of `loadTime` where the DOM traversals return: when `getCommit` returns
`null`, `loadTime` issues no request, does not read or ask for the token, does not touch
the element and leaves the cache as it is, for every anchor; and it shows the NoCommit
message and returns whenever the two DOM traversals, which run first, return. -/
theorem loadTime_no_commit (encodeURIComponent : String → String) (net : Network)
    (page : Page) (api : GitLabAPI) (el : Anchor) (h : getCommit page = none) :
    (loadTime encodeURIComponent net page api el).api = api
      ∧ ((loadTime encodeURIComponent net page api el).effects = [] ∨
          (loadTime encodeURIComponent net page api el).effects = [.alert noCommitMessage])
      ∧ (∀ stage name : Option String,
          getStageFromRecentTimes el = .ok stage → getBuildNameFromRecentTimes el = .ok name →
          loadTime encodeURIComponent net page api el = ⟨[.alert noCommitMessage], none, api⟩) := by
  refine ⟨?_, ?_, ?_⟩
  · unfold loadTime
    cases getStageFromRecentTimes el <;> cases getBuildNameFromRecentTimes el <;>
      simp [h, truthy]
  · unfold loadTime
    cases getStageFromRecentTimes el <;> cases getBuildNameFromRecentTimes el <;>
      simp [h, truthy]
  · intro stage name hs hn
    simp [loadTime, hs, hn, h, truthy]

/-- An instance of the hard stop: the sample anchor on a page whose only commit link
leads to the commit list. -/
theorem loadTime_no_commit_witness :
    getCommit noCommitPage = none ∧
      loadTime sampleEncode (sampleNetwork []) noCommitPage ⟨[]⟩ sampleAnchor
        = ⟨[.alert noCommitMessage], none, ⟨[]⟩⟩ :=
  ⟨rfl, (loadTime_no_commit sampleEncode (sampleNetwork []) noCommitPage ⟨[]⟩ sampleAnchor rfl).2.2
    (some "test") (some "unit-tests") rfl rfl⟩

/-- C9, the code at the failing input: `getCommit` returns `null` on a page whose only
commit link leads to the commit list, yet for an anchor in the first job row of a table
without a stage header `loadTime` shows no message: `getStageFromRecentTimes`, which runs
before the commit is tested, raises a `TypeError` on reading `previousSibling` of `null`
instead of returning `null`, and the exception leaves `loadTime`. -/
theorem loadTime_no_commit_raises :
    getCommit noCommitPage = none ∧
      loadTime sampleEncode (sampleNetwork []) noCommitPage ⟨[]⟩ firstRowAnchor
        = ⟨[], some (nullProperty "previousSibling"), ⟨[]⟩⟩ ∧
      loadTime sampleEncode (sampleNetwork []) noCommitPage ⟨[]⟩ firstRowAnchor
        ≠ ⟨[.alert noCommitMessage], none, ⟨[]⟩⟩ := by
  decide

theorem statusStage_issues_no_request (net : Network) (url : String) (name : Option String) :
    ∀ e ∈ (statusStage net url name).1 ++ catchEffects (statusStage net url name).2,
      ∀ (u : String) (token : Option String), e ≠ .getJSON u token := by
  intro e he u token
  unfold statusStage at he
  cases hst : (net.statuses url).toExcept with
  | error err =>
    simp [hst, catchEffects] at he
    rcases he with he | he <;> subst he <;> simp
  | ok body =>
    cases body with
    | none =>
      simp [hst, catchEffects, statusesThen] at he
      rcases he with he | he <;> subst he <;> simp
    | some records =>
      simp [hst, catchEffects, statusesThen] at he
      exact statusLoop_issues_no_request name records e he u token

/-- C7: once the commit record is fetched, a record whose `parent_ids` is missing or
empty makes the pipeline fail with the no-parent error: the commit request is the last
request, the error is caught and the default link is put back; a record with parents is
followed by exactly one status request, for `parent_ids[0]`. -/
theorem loadTime_root_commit (encodeURIComponent : String → String) (net : Network)
    (page : Page) (api : GitLabAPI) (el : Anchor) (stage name : Option String)
    (commit token projectName : String) (tokenEffects : List Effect) (project : Nat)
    (body : CommitData)
    (hstage : getStageFromRecentTimes el = .ok stage)
    (hname : getBuildNameFromRecentTimes el = .ok name)
    (hcommit : getCommit page = some commit)
    (htoken : requireToken page = (tokenEffects, some token))
    (hlink : el.loadTimeLink = true)
    (hproject : getProjectName page = .ok projectName)
    (hid : awaitProject net (encodeURIComponent projectName)
        (getProjectID encodeURIComponent projectName (some token) api).1 = .ok project)
    (hbody : net.commit (getCommitUrl commit project) = .ok (some body)) :
    (loadTime encodeURIComponent net page api el).thrown = none
      ∧ ((body.parent_ids = none ∨ body.parent_ids = some []) →
        (loadTime encodeURIComponent net page api el).effects
          = tokenEffects ++ [.removeChild, .gmGetValue] ++
            (getProjectID encodeURIComponent projectName (some token) api).2.2 ++
            [.gmGetValue, .getJSON (getCommitUrl commit project) (some token),
              .append "Load Last Build Time",
              .consoleErrorOf (.referenceError ("Couldn't find parent commits for " ++ commit))])
      ∧ (∀ (parent : String) (rest : List String), body.parent_ids = some (parent :: rest) →
        ∃ tail : List Effect,
          (∀ e ∈ tail, ∀ (url : String) (tok : Option String), e ≠ .getJSON url tok) ∧
          (loadTime encodeURIComponent net page api el).effects
            = tokenEffects ++ [.removeChild, .gmGetValue] ++
              (getProjectID encodeURIComponent projectName (some token) api).2.2 ++
              [.gmGetValue, .getJSON (getCommitUrl commit project) (some token),
                .gmGetValue,
                .getJSON (getCommitStatusUrl parent project stage name) (some token)] ++ tail) := by
  have htruthy : truthy (some commit) = true := getCommit_truthy page commit hcommit
  have hdefault : loadTimeLink none = "Load Last Build Time" := by decide
  have hpromise : ∃ p : Promise,
      (getProjectID encodeURIComponent projectName (some token) api).1 = .promise p := by
    cases hv : (getProjectID encodeURIComponent projectName (some token) api).1 with
    | promise p => exact ⟨p, rfl⟩
    | inherited key =>
      rw [hv] at hid
      simp [awaitProject] at hid
  obtain ⟨p, hp⟩ := hpromise
  rw [hp] at hid
  refine ⟨?_, ?_, ?_⟩
  · simp [loadTime, hstage, hname, hcommit, htruthy, htoken, hlink, hproject, hp]
  · intro hparents
    have hthen : commitThen commit (some body)
        = .error (.referenceError ("Couldn't find parent commits for " ++ commit)) := by
      rcases hparents with hp | hp <;> simp [commitThen, hp]
    simp [loadTime, hstage, hname, hcommit, htruthy, htoken, hlink, hproject, hp, hid,
      loadTimeChain, hbody, Response.toExcept, hthen, loadTimeCatch, catchEffects, hdefault]
  · intro parent rest hparents
    have hthen : commitThen commit (some body) = .ok parent := by
      simp [commitThen, hparents]
    refine ⟨(statusStage net (getCommitStatusUrl parent project stage name) name).1 ++
        catchEffects (statusStage net (getCommitStatusUrl parent project stage name) name).2,
      statusStage_issues_no_request net _ name, ?_⟩
    simp [loadTime, hstage, hname, hcommit, htruthy, htoken, hlink, hproject, hp, hid,
      loadTimeChain, hbody, Response.toExcept, hthen, loadTimeCatch]

/-- Witness of C7: the sample page and anchor on a host where commit `abc123` is a root
commit. -/
theorem loadTime_root_commit_witness :
    (loadTime sampleEncode
        ⟨fun _ => .ok (some ⟨some 42⟩), fun _ => .ok (some ⟨some []⟩), fun _ => .ok (some [])⟩
        samplePage ⟨[]⟩ sampleAnchor).effects
      = [.gmGetValue] ++ [.removeChild, .gmGetValue] ++
        (getProjectID sampleEncode "org/proj" (some "secret") ⟨[]⟩).2.2 ++
        [.gmGetValue, .getJSON (getCommitUrl "abc123" 42) (some "secret"),
          .append "Load Last Build Time",
          .consoleErrorOf (.referenceError ("Couldn't find parent commits for " ++ "abc123"))] :=
  (loadTime_root_commit sampleEncode
    ⟨fun _ => .ok (some ⟨some 42⟩), fun _ => .ok (some ⟨some []⟩), fun _ => .ok (some [])⟩
    samplePage ⟨[]⟩ sampleAnchor (some "test") (some "unit-tests") "abc123" "secret" "org/proj"
    [.gmGetValue] 42 ⟨some []⟩ rfl rfl rfl rfl rfl rfl rfl rfl).2.1 (Or.inr rfl)

/-! ## formatTime on whole numbers of milliseconds -/

theorem formatTime_ofNat (t : Nat) :
    formatTime (.int (t : Int))
      = if ((t + 500) / 1000 + 30) / 60 < 60 then
          pad (toString (((t + 500) / 1000 + 30) / 60)) ++ ":" ++
            pad (toString ((t + 500) / 1000 % 60))
        else
          toString ((((t + 500) / 1000 + 30) / 60 + 30) / 60) ++ ":" ++
            pad (toString (((t + 500) / 1000 + 30) / 60 % 60)) ++ ":" ++
            pad (toString ((t + 500) / 1000 % 60)) := by
  have hts : ∀ n : Nat, toString ((n : Nat) : Int) = toString n := fun n => rfl
  have h1 : (2 * (t : Int) + 1000) / (2 * 1000) = (((t + 500) / 1000 : Nat) : Int) := by omega
  have h2 : (2 * (((t + 500) / 1000 : Nat) : Int) + 60) / (2 * 60)
      = ((((t + 500) / 1000 + 30) / 60 : Nat) : Int) := by omega
  have h3 : (2 * ((((t + 500) / 1000 + 30) / 60 : Nat) : Int) + 60) / (2 * 60)
      = (((((t + 500) / 1000 + 30) / 60 + 30) / 60 : Nat) : Int) := by omega
  have h4 : Int.tmod (((t + 500) / 1000 : Nat) : Int) 60
      = (((t + 500) / 1000 % 60 : Nat) : Int) := by
    rw [Int.tmod_eq_emod (by omega) (by omega)]
    omega
  have h5 : Int.tmod ((((t + 500) / 1000 + 30) / 60 : Nat) : Int) 60
      = ((((t + 500) / 1000 + 30) / 60 % 60 : Nat) : Int) := by
    rw [Int.tmod_eq_emod (by omega) (by omega)]
    omega
  have h6 : (((((t + 500) / 1000 + 30) / 60 : Nat) : Int) < 60)
      ↔ ((t + 500) / 1000 + 30) / 60 < 60 := by omega
  simp only [formatTime, Num.roundDiv, Num.rem, Num.lt, Num.toStr, h1, h2, h3, h4, h5, hts,
    decide_eq_true_eq, h6]

theorem formatTime_seconds_under_half_minute (m s : Nat) (hm : m < 60) (hs : s < 30) :
    formatTime (.int (((60 * m + s) * 1000 : Nat) : Int))
      = pad (toString m) ++ ":" ++ pad (toString s) := by
  have e1 : ((60 * m + s) * 1000 + 500) / 1000 = 60 * m + s := by omega
  have e2 : (60 * m + s + 30) / 60 = m := by omega
  have e3 : (60 * m + s) % 60 = s := by omega
  rw [formatTime_ofNat, e1, e2, e3, if_pos hm]

theorem formatTime_seconds_from_half_minute (m s : Nat) (hm : m < 59) (hs : 30 ≤ s)
    (hs2 : s < 60) :
    formatTime (.int (((60 * m + s) * 1000 : Nat) : Int))
      = pad (toString (m + 1)) ++ ":" ++ pad (toString s) := by
  have e1 : ((60 * m + s) * 1000 + 500) / 1000 = 60 * m + s := by omega
  have e2 : (60 * m + s + 30) / 60 = m + 1 := by omega
  have e3 : (60 * m + s) % 60 = s := by omega
  have hlt : m + 1 < 60 := by omega
  rw [formatTime_ofNat, e1, e2, e3, if_pos hlt]

theorem formatTime_last_half_minute_of_the_hour (s : Nat) (hs : 30 ≤ s) (hs2 : s < 60) :
    formatTime (.int (((60 * 59 + s) * 1000 : Nat) : Int))
      = "1:00:" ++ pad (toString s) := by
  have e1 : ((60 * 59 + s) * 1000 + 500) / 1000 = 60 * 59 + s := by omega
  have e2 : (60 * 59 + s + 30) / 60 = 60 := by omega
  have e3 : (60 * 59 + s) % 60 = s := by omega
  have e4 : toString ((60 + 30) / 60) ++ ":" ++ pad (toString (60 % 60)) ++ ":" = "1:00:" := by
    decide
  rw [formatTime_ofNat, e1, e2, e3, if_neg (by decide), e4]

/-! ## The defects: evaluations at the failing inputs -/

/-- C2, the code at the failing input: `formatTime` gives `01:05`, `1:01:01` and `00:00`
for 65000, 3661000 and 0, but `06:30` for 330000 ms (5 min 30 s): the minutes are
`Math.round (seconds / 60)`, which rounds up from 30 s on; the pipeline of the
end-to-end example therefore shows `Previously failed after 06:30`. -/
theorem formatTime_rounds_minutes_up :
    formatTime (.int 65000) = "01:05" ∧ formatTime (.int 3661000) = "1:01:01" ∧
      formatTime (.int 0) = "00:00" ∧ formatTime (.int 330000) = "06:30" ∧
      Num.sub sampleFailedRecord.finished_at sampleFailedRecord.started_at = .int 330000 ∧
      (loadTime sampleEncode (sampleNetwork [sampleFailedRecord]) samplePage ⟨[]⟩
          sampleAnchor).effects
        = [.gmGetValue, .removeChild, .gmGetValue,
            .getJSON "/api/v4/projects/org%2Fproj/" (some "secret"),
            .gmGetValue,
            .getJSON "/api/v4/projects/42/repository/commits/abc123" (some "secret"),
            .gmGetValue,
            .getJSON "/api/v4/projects/42/repository/commits/def456/statuses?stage=test&name=unit-tests"
              (some "secret"),
            .append "Previously failed after 06:30"] := by
  decide

/-- C3, the code at the failing input: for the empty status list the status handler
appends nothing and raises nothing, so that the `catch` handler does not run: after the
link was removed the element is left without any link. -/
theorem loadTime_no_match_renders_nothing :
    statusesThen (some "unit-tests") (some []) = ([], none) ∧
      loadTime sampleEncode (sampleNetwork []) samplePage ⟨[]⟩ sampleAnchor
        = ⟨[.gmGetValue, .removeChild, .gmGetValue,
            .getJSON "/api/v4/projects/org%2Fproj/" (some "secret"),
            .gmGetValue,
            .getJSON "/api/v4/projects/42/repository/commits/abc123" (some "secret"),
            .gmGetValue,
            .getJSON "/api/v4/projects/42/repository/commits/def456/statuses?stage=test&name=unit-tests"
              (some "secret")],
          none,
          ⟨[("org%2Fproj", ⟨"/api/v4/projects/org%2Fproj/", .fulfilled 42⟩)]⟩⟩ := by
  decide

/-- C4, the code at the failing input: 59 min 30 s, under 60 minutes, is rendered as
`1:00:30`, in the form `H:MM:SS`; so is every time from 59 min 29.5 s on, while
59 min 29 s is still rendered as `59:29`. -/
theorem formatTime_hour_form_under_an_hour :
    formatTime (.int 3570000) = "1:00:30" ∧ formatTime (.int 3569500) = "1:00:30" ∧
      formatTime (.int 3599000) = "1:00:59" ∧ formatTime (.int 3569499) = "59:29" := by
  decide

/-- C5, the code at the failing input: 30 s is rendered as `01:30`, whose numeric
equivalent is 90000 ms, which is rendered as `02:30`. -/
theorem formatTime_not_idempotent :
    formatTime (.int 30000) = "01:30" ∧
      numericEquivalent (formatTime (.int 30000)) = some 90000 ∧
      formatTime (.int 90000) = "02:30" ∧
      formatTime (.int 90000) ≠ formatTime (.int 30000) := by
  decide

end GitLabRecentJobTime
